import Mathlib

/-!
Shallow embedding of the init-only-classes reference polyfill
(`polyfill/index.js`, reproduced in `Explainer.md`): `markInitOnly`,
`init`, the `instance` accessor getter, and `guardNewForInitOnly`.

Modelling choices, matched line by line against the source:
* Object fields are association lists `String × Val`; objects have
  identity through numeric ids in a small heap.
* Per-class mutable state (`__isInitOnly`, the installed `instance`
  getter, `__instance`, `__inFlight`) lives in `RegState`, together with
  an allocation counter and a ghost counter `initCalls` counting how
  often an initializer body has been invoked.
* A promise is data: its identity (`pid`), the object it concerns, and
  the outcome its underlying thenable will settle with.  The registry
  promise built by `init` is `Promise.resolve(maybe).then(onFulfilled)`;
  `settle` runs that continuation: on fulfillment it clears `__inFlight`
  and memoizes the allocated object, on rejection the `then` handler is
  skipped, so the source leaves `__inFlight` in place.
* `guardNewForInitOnly` returns a proxy whose `get` forwards to the
  target class and whose `construct` trap rejects init-only targets;
  `Construct.guarded` models that proxy, and `init` applied to it runs
  the trap at its internal `Reflect.construct(ctor, [])`.
* `Reflect.construct(ctor, [])` on a plain class runs field initializers
  and, when the class declares one, the user constructor with zero
  arguments (`constructRaw c []`).
* The source binds `const policy = ctor[SymbolInitPolicy] || 'return-first'`
  and never reads it again; `policyOf` models the lookup, and `init`
  accordingly never consults it.
-/

namespace InitOnly

/-- A primitive field value stored on an object. -/
inductive Val where
  | num (n : Nat)
  | str (s : String)
  | bool (b : Bool)
deriving DecidableEq

/-- An object's own fields, as an association list. -/
abbrev ObjFields := List (String × Val)

/-- Write a field, replacing an existing binding for the same key. -/
def setField : ObjFields → String → Val → ObjFields
  | [], k, v => [(k, v)]
  | (k', v') :: rest, k, v =>
      if k' = k then (k, v) :: rest else (k', v') :: setField rest k v

/-- Read a field. -/
def getField : ObjFields → String → Option Val
  | [], _ => none
  | (k', v') :: rest, k => if k' = k then some v' else getField rest k

/-- Apply a list of field writes in order. -/
def applyAll (o : ObjFields) (ws : List (String × Val)) : ObjFields :=
  ws.foldl (fun acc kv => setField acc kv.1 kv.2) o

/-- How the thenable returned by an asynchronous initializer settles:
it either fulfills, having performed the given field writes on `this`
during its deferred steps, or it rejects. -/
inductive AsyncOutcome where
  | fulfills (writes : List (String × Val))
  | rejects
deriving DecidableEq

/-- A JavaScript value returned by an initializer body: anything
non-thenable (`undefined`, a primitive, a reference to some other
object) or a thenable with a settlement outcome. -/
inductive JsRet where
  | undefined
  | prim (v : Val)
  | objRef (id : Nat)
  | thenable (out : AsyncOutcome)
deriving DecidableEq

/-- Source `isThenable`: `x && typeof x.then === 'function'`. -/
def isThenable : JsRet → Bool
  | .thenable _ => true
  | _ => false

/-- The three policies of `Symbol.initPolicy`. -/
inductive Policy where
  | returnFirst
  | strict
  | reinit
deriving DecidableEq

/-- Static description of a class: whether its prototype has an own
`initializer` property, whether a user `constructor` is declared (and
what it writes when run), default field initializers, the callable
`initializer` looked up on an instance (with the fields it writes
synchronously and the value it returns), and the declared
`Symbol.initPolicy`. -/
structure ClassDef where
  hasOwnInitializer : Bool := false
  hasUserConstructor : Bool := false
  fieldDefaults : List (String × Val) := []
  ctorBody : List Val → List (String × Val) := fun _ => []
  initializerImpl : Option (ObjFields → List Val → ObjFields × JsRet) := none
  policyDecl : Option Policy := none

/-- Source line `const policy = ctor[SymbolInitPolicy] || 'return-first'`
(the binding `init` computes and then never uses). -/
def policyOf (c : ClassDef) : Policy :=
  c.policyDecl.getD .returnFirst

/-- `Reflect.construct(cls, args)` on the plain class: field
initializers run, then the user constructor (when declared) runs with
`args`. -/
def constructRaw (c : ClassDef) (args : List Val) : ObjFields :=
  let base := applyAll [] c.fieldDefaults
  if c.hasUserConstructor then applyAll base (c.ctorBody args) else base

/-- A constructor value as passed around by the polyfill: either the
plain class or the proxy returned by `guardNewForInitOnly` over it.
Property reads on the proxy forward to the same underlying class and
the same per-class state. -/
inductive Construct where
  | plain (c : ClassDef)
  | guarded (c : ClassDef)

/-- The underlying class of a constructor value (proxy `get` forwards). -/
def classOf : Construct → ClassDef
  | .plain c => c
  | .guarded c => c

/-- An arbitrary argument to the polyfill's entry points: a
class/constructor function, or some non-function value. -/
inductive Target where
  | nonFunction
  | fn (k : Construct)

/-- A promise handle: identity, the allocated object it will resolve
to, and how its underlying thenable settles. -/
structure Promise where
  pid : Nat
  obj : Nat
  out : AsyncOutcome
deriving DecidableEq

/-- Object heap: object id to fields. -/
abbrev Heap := List (Nat × ObjFields)

/-- Update (or add) the fields of an object in the heap. -/
def heapSet : Heap → Nat → ObjFields → Heap
  | [], i, o => [(i, o)]
  | (j, f) :: rest, i, o =>
      if j = i then (i, o) :: rest else (j, f) :: heapSet rest i o

/-- Read an object's fields from the heap (empty when absent). -/
def heapGet : Heap → Nat → ObjFields
  | [], _ => []
  | (j, f) :: rest, i => if j = i then f else heapGet rest i

/-- Mutable per-class state: `C.__isInitOnly` (`marked`), whether
`markInitOnly` installed the `instance` getter, `C.__instance` as an
object id, `C.__inFlight`, a fresh-id counter for allocations and
promises, the ghost count of initializer-body invocations, and the
heap of objects allocated for this class. -/
structure RegState where
  marked : Bool := false
  hasInstanceGetter : Bool := false
  instanceId : Option Nat := none
  inFlight : Option Promise := none
  nextId : Nat := 0
  initCalls : Nat := 0
  heap : Heap := []
deriving DecidableEq

/-- The pristine state of a freshly declared class. -/
def s0 : RegState := {}

/-- The `TypeError`s the polyfill raises, tagged by site.  In the
spec's taxonomy: `notInitOnly` and `initOnlyNewGuard` are the two
`UsageError`s, `uninitialized` is `UninitializedError`, and
`notAFunction` / `noInitializerFn` are configuration failures. -/
inductive JsError where
  | notAFunction
  | notInitOnly
  | noInitializerFn
  | initOnlyNewGuard
  | uninitialized
deriving DecidableEq

/-- What a call to `init` produces: a synchronously thrown `TypeError`,
a synchronously returned instance, or a pending promise handle. -/
inductive Outcome where
  | thrown (e : JsError)
  | obj (id : Nat)
  | promise (p : Promise)
deriving DecidableEq

/-- Source `!!ctor.__isInitOnly ||
Object.prototype.hasOwnProperty.call(ctor.prototype, 'initializer')`,
used identically by `init` and by the guard proxy's construct trap. -/
def isInitOnlyOf (c : ClassDef) (s : RegState) : Bool :=
  s.marked || c.hasOwnInitializer

/-- The fresh-initialization tail of `init`, after the memoization and
in-flight checks: `Reflect.construct(ctor, [])`, the `o.initializer`
function check, `initFn.apply(o, args)`, then either memoize
synchronously or store the in-flight promise. -/
def initFresh (c : ClassDef) (args : List Val) (s : RegState) : Outcome × RegState :=
  let oid := s.nextId
  let o := constructRaw c []
  let s1 : RegState := { s with heap := heapSet s.heap oid o, nextId := s.nextId + 1 }
  match c.initializerImpl with
  | none => (.thrown .noInitializerFn, s1)
  | some f =>
      let r := f o args
      let s2 : RegState :=
        { s1 with heap := heapSet s1.heap oid r.1, initCalls := s1.initCalls + 1 }
      match r.2 with
      | .thenable out =>
          let p : Promise := ⟨s2.nextId, oid, out⟩
          (.promise p, { s2 with inFlight := some p, nextId := s2.nextId + 1 })
      | _ => (.obj oid, { s2 with instanceId := some oid })

/-- Source `init(ctor, ...args)`.  The checks run in source order:
`typeof ctor === 'function'`, the init-only check, `ctor.__instance`,
`ctor.__inFlight`, then allocation (which, on the guard proxy, runs the
construct trap and throws for an init-only target) and the initializer
call. -/
def init (t : Target) (args : List Val) (s : RegState) : Outcome × RegState :=
  match t with
  | .nonFunction => (.thrown .notAFunction, s)
  | .fn k =>
      let c := classOf k
      if isInitOnlyOf c s then
        match s.instanceId with
        | some o => (.obj o, s)
        | none =>
            match s.inFlight with
            | some p => (.promise p, s)
            | none =>
                match k with
                | .plain c' => initFresh c' args s
                | .guarded c' =>
                    if isInitOnlyOf c' s then (.thrown .initOnlyNewGuard, s)
                    else initFresh c' args s
      else (.thrown .notInitOnly, s)

/-- A sequence of `init` calls on the same constructor, threading
state; models N callers arriving one after another between suspension
points. -/
def initMany (t : Target) (argss : List (List Val)) (s : RegState) :
    List Outcome × RegState :=
  match argss with
  | [] => ([], s)
  | a :: rest =>
      let r := init t a s
      let rs := initMany t rest r.2
      (r.1 :: rs.1, rs.2)

/-- The event loop settling the stored in-flight promise.  On
fulfillment the registered continuation runs: the async initializer's
deferred writes land on the object, `__inFlight` is cleared and
`__instance` is set to the allocated object.  On rejection the `then`
continuation is skipped, so the source mutates nothing. -/
def settle (s : RegState) : RegState :=
  match s.inFlight with
  | none => s
  | some p =>
      match p.out with
      | .fulfills ws =>
          { s with
              heap := heapSet s.heap p.obj (applyAll (heapGet s.heap p.obj) ws),
              inFlight := none,
              instanceId := some p.obj }
      | .rejects => s

/-- What a caller holding promise handle `p` observes once it settles:
resolution to the allocated object on fulfillment, the rejection on
failure. -/
def awaitResult (p : Promise) : Except Unit Nat :=
  match p.out with
  | .fulfills _ => .ok p.obj
  | .rejects => .error ()

/-- Source `markInitOnly(C)`: throws `TypeError` on a non-function,
otherwise sets `C.__isInitOnly = true`, emits a console warning exactly
when the prototype lacks an own `initializer` (the returned `Bool`),
and installs the `instance` getter. -/
def markInitOnly (t : Target) (s : RegState) : Except JsError (Bool × RegState) :=
  match t with
  | .nonFunction => .error .notAFunction
  | .fn k =>
      .ok (!(classOf k).hasOwnInitializer,
        { s with marked := true, hasInstanceGetter := true })

/-- Result of reading the `instance` property off a class. -/
inductive PropAccess where
  | thrown (e : JsError)
  | undefined
  | objRef (id : Nat)
deriving DecidableEq

/-- Reading `C.instance`: the getter installed by `markInitOnly` throws
when `C.__instance` is unset and returns it otherwise; a class never
passed to `markInitOnly` has no such property, so the read yields
`undefined`. -/
def instanceProp (s : RegState) : PropAccess :=
  if s.hasInstanceGetter then
    match s.instanceId with
    | none => .thrown .uninitialized
    | some o => .objRef o
  else .undefined

/-- Result of a `new` expression. -/
inductive NewOutcome where
  | thrown (e : JsError)
  | obj (fields : ObjFields)
deriving DecidableEq

/-- `new target(args)`: on the guard proxy the construct trap throws
for an init-only target and otherwise forwards to
`Reflect.construct`; on a plain class construction just proceeds (the
polyfill intercepts `new` only through the proxy). -/
def newOn (t : Target) (args : List Val) (s : RegState) : NewOutcome :=
  match t with
  | .nonFunction => .thrown .notAFunction
  | .fn (.plain c) => .obj (constructRaw c args)
  | .fn (.guarded c) =>
      if isInitOnlyOf c s then .thrown .initOnlyNewGuard
      else .obj (constructRaw c args)

/-- First argument of an argument list, as the polyfill's example
initializers destructure it. -/
def headVal (args : List Val) : Val :=
  args.headD (.str "")

/-! Concrete classes and states used as evaluation inputs, taken from
the repository's own examples. -/

/-- The body of `App.prototype.initializer({port})`: writes `port` on
`this` and returns `undefined`. -/
def appInit : ObjFields → List Val → ObjFields × JsRet :=
  fun o args => (setField o "port" (headVal args), .undefined)

/-- The `App` class of the examples: an own `initializer({port})`
setting `this.port`, no user constructor, never marked. -/
def appC : ClassDef :=
  { hasOwnInitializer := true,
    initializerImpl := some appInit }

/-- State of `App` after `init(App, {port:3000})` from the pristine
state. -/
def appS1 : RegState :=
  (init (.fn (.plain appC)) [.num 3000] s0).2

/-- The `DB` class of `examples/async.js`: an async `initializer(url)`
whose thenable fulfills after writing `url` and `ready` on `this`. -/
def dbC : ClassDef :=
  { hasOwnInitializer := true,
    initializerImpl := some fun o args =>
      (o, .thenable (.fulfills [("url", headVal args), ("ready", .bool true)])) }

/-- State of `DB` after the first `init(DB, 'postgres://db')`. -/
def dbS1 : RegState :=
  (init (.fn (.plain dbC)) [.str "postgres://db"] s0).2

/-- The pending handle that first `init` call on `DB` returns. -/
def dbP : Promise :=
  ⟨1, 0, .fulfills [("url", .str "postgres://db"), ("ready", .bool true)]⟩

/-- A `DB`-like class whose async initializer rejects. -/
def dbFailC : ClassDef :=
  { hasOwnInitializer := true,
    initializerImpl := some fun o _ => (o, .thenable .rejects) }

/-- State after the first `init` on the rejecting class. -/
def dbFailS1 : RegState :=
  (init (.fn (.plain dbFailC)) [.str "url-a"] s0).2

/-- The in-flight handle of that failed attempt. -/
def dbFailP : Promise :=
  ⟨1, 0, .rejects⟩

/-- The `Settings` class of the README's strict-policy example:
`static [Symbol.initPolicy] = 'strict'` and an `initializer(opts)`. -/
def settingsC : ClassDef :=
  { hasOwnInitializer := true,
    policyDecl := some .strict,
    initializerImpl := some fun o args => (setField o "opts" (headVal args), .undefined) }

/-- State of `Settings` after `init(Settings, 'prod')`. -/
def settingsS1 : RegState :=
  (init (.fn (.plain settingsC)) [.str "prod"] s0).2

/-- A class declaring a conventional constructor and no `initializer`
method at all. -/
def ctorOnlyC : ClassDef :=
  { hasUserConstructor := true,
    ctorBody := fun _ => [("built", .bool true)] }

/-- A class declaring both a conventional constructor (which marks the
instance) and an own `initializer` method. -/
def ctorAndInitC : ClassDef :=
  { hasOwnInitializer := true,
    hasUserConstructor := true,
    ctorBody := fun _ => [("ctorRan", .bool true)],
    initializerImpl := some fun o args => (setField o "port" (headVal args), .undefined) }

/-- A synchronous initializer body returning a reference to a
different object (id 99) instead of `undefined`. -/
def retObjInit : ObjFields → List Val → ObjFields × JsRet :=
  fun o _ => (o, .objRef 99)

/-- A class whose synchronous initializer returns a reference to a
different object (id 99) instead of `undefined`. -/
def retObjC : ClassDef :=
  { hasOwnInitializer := true,
    initializerImpl := some retObjInit }

/-- A normal class: no own `initializer`, never marked. -/
def userC : ClassDef := {}

/-- The state of a class right after `markInitOnly` from the pristine
state. -/
def markedS0 : RegState :=
  { s0 with marked := true, hasInstanceGetter := true }

/-! Helper lemmas about `init`. -/

/-- When an instance is memoized, `init` returns it and changes
nothing, whatever the arguments. -/
theorem init_memoized (k : Construct) (a : List Val) (s : RegState) (o : Nat)
    (hio : isInitOnlyOf (classOf k) s = true) (h : s.instanceId = some o) :
    init (.fn k) a s = (.obj o, s) := by
  simp [init, hio, h]

/-- When an in-flight handle is stored and no instance is memoized,
`init` returns that very handle and changes nothing, whatever the
arguments. -/
theorem init_pending (k : Construct) (a : List Val) (s : RegState) (p : Promise)
    (hio : isInitOnlyOf (classOf k) s = true)
    (hinst : s.instanceId = none) (hifl : s.inFlight = some p) :
    init (.fn k) a s = (.promise p, s) := by
  simp [init, hio, hinst, hifl]

/-- Inversion for the fresh path: a `initFresh` call that returned an
instance memoized exactly that object, left `__inFlight` alone, never
changed the mark, and ran the initializer body once. -/
theorem initFresh_obj_state (c : ClassDef) (a : List Val) (s s' : RegState) (o : Nat)
    (h : initFresh c a s = (.obj o, s')) :
    s'.instanceId = some o ∧ s'.marked = s.marked ∧ s'.inFlight = s.inFlight ∧
      s'.initCalls = s.initCalls + 1 := by
  simp only [initFresh] at h
  split at h
  · simp_all
  · split at h
    · simp_all
    · simp only [Prod.mk.injEq, Outcome.obj.injEq] at h
      obtain ⟨h1, h2⟩ := h
      subst h1
      subst h2
      simp

/-- Inversion for the fresh path: a `initFresh` call that returned a
promise stored that same handle, memoized nothing, never changed the
mark, and ran the initializer body once. -/
theorem initFresh_promise_state (c : ClassDef) (a : List Val) (s s' : RegState) (p : Promise)
    (h : initFresh c a s = (.promise p, s')) :
    s'.inFlight = some p ∧ s'.instanceId = s.instanceId ∧ s'.marked = s.marked ∧
      s'.initCalls = s.initCalls + 1 := by
  simp only [initFresh] at h
  split at h
  · simp_all
  · split at h
    · simp only [Prod.mk.injEq, Outcome.promise.injEq] at h
      obtain ⟨h1, h2⟩ := h
      subst h1
      subst h2
      simp
    · simp_all

/-- Inversion: a call that returned an instance leaves that instance
memoized, never unmarks the class, and only happens on an init-only
class. -/
theorem init_obj_state (k : Construct) (a : List Val) (s s' : RegState) (o : Nat)
    (h : init (.fn k) a s = (.obj o, s')) :
    isInitOnlyOf (classOf k) s = true ∧ s'.instanceId = some o ∧ s'.marked = s.marked := by
  by_cases hio : isInitOnlyOf (classOf k) s = true
  · refine ⟨hio, ?_⟩
    rcases hi : s.instanceId with _ | o'
    · rcases hf : s.inFlight with _ | p'
      · cases k with
        | plain c =>
            simp only [init, classOf] at h hio
            simp only [hio, hi, hf, if_true] at h
            have := initFresh_obj_state c a s s' o h
            exact ⟨this.1, this.2.1⟩
        | guarded c =>
            simp only [init, classOf] at h hio
            simp only [hio, hi, hf, if_true] at h
            simp at h
      · simp only [init] at h
        simp only [hio, hi, hf, if_true] at h
        simp at h
    · simp only [init] at h
      simp only [hio, hi, if_true] at h
      simp only [Prod.mk.injEq, Outcome.obj.injEq] at h
      obtain ⟨h1, h2⟩ := h
      subst h1
      subst h2
      exact ⟨hi, rfl⟩
  · simp only [init] at h
    rw [Bool.not_eq_true] at hio
    simp only [hio, if_false] at h
    simp at h

/-- Inversion: a call on the plain class from an uninitialized,
not-in-flight state that returned a promise stored that same handle,
memoized nothing, invoked the initializer body exactly once, and never
unmarks the class. -/
theorem init_promise_fresh (c : ClassDef) (a : List Val) (s s' : RegState) (p : Promise)
    (hinst : s.instanceId = none) (hifl : s.inFlight = none)
    (h : init (.fn (.plain c)) a s = (.promise p, s')) :
    isInitOnlyOf c s = true ∧ s'.inFlight = some p ∧ s'.instanceId = none ∧
      s'.initCalls = s.initCalls + 1 ∧ s'.marked = s.marked := by
  by_cases hio : isInitOnlyOf c s = true
  · simp only [init, classOf] at h
    simp only [hio, hinst, hifl, if_true] at h
    have := initFresh_promise_state c a s s' p h
    exact ⟨hio, this.1, by rw [this.2.1, hinst], this.2.2.2, this.2.2.1⟩
  · simp only [init, classOf] at h
    rw [Bool.not_eq_true] at hio
    simp only [hio, if_false] at h
    simp at h

/-- Every further call arriving while a handle is in flight returns
that identical handle and leaves the state untouched. -/
theorem initMany_pending (k : Construct) (argss : List (List Val)) (s : RegState)
    (p : Promise) (hio : isInitOnlyOf (classOf k) s = true)
    (hinst : s.instanceId = none) (hifl : s.inFlight = some p) :
    initMany (.fn k) argss s = (argss.map fun _ => Outcome.promise p, s) := by
  induction argss with
  | nil => simp [initMany]
  | cons a rest ih =>
      simp [initMany, init_pending k a s p hio hinst hifl, ih]

/-- A single `init` call on the guard proxy over an init-only class
with nothing memoized and nothing in flight throws inside
`Reflect.construct` and changes nothing. -/
theorem init_guard_throw (c : ClassDef) (a : List Val) (s : RegState)
    (hio : isInitOnlyOf c s = true)
    (hinst : s.instanceId = none) (hifl : s.inFlight = none) :
    init (.fn (.guarded c)) a s = (.thrown .initOnlyNewGuard, s) := by
  simp [init, classOf, hio, hinst, hifl]

/-- Iterated version of `init_guard_throw`. -/
theorem initMany_guard_throw (c : ClassDef) (argss : List (List Val)) (s : RegState)
    (hio : isInitOnlyOf c s = true)
    (hinst : s.instanceId = none) (hifl : s.inFlight = none) :
    initMany (.fn (.guarded c)) argss s
      = (argss.map fun _ => Outcome.thrown .initOnlyNewGuard, s) := by
  induction argss with
  | nil => simp [initMany]
  | cons a rest ih =>
      simp [initMany, init_guard_throw c a s hio hinst hifl, ih]

/-- Full description of a fresh synchronous initialization: the object
is allocated by constructing the class with zero arguments, the
initializer runs synchronously on it with the supplied arguments, and
the allocated object itself is memoized and returned. -/
theorem init_fresh_sync (c : ClassDef) (args : List Val) (s : RegState)
    (f : ObjFields → List Val → ObjFields × JsRet)
    (hio : isInitOnlyOf c s = true)
    (hinst : s.instanceId = none) (hifl : s.inFlight = none)
    (himpl : c.initializerImpl = some f)
    (hsync : isThenable (f (constructRaw c []) args).2 = false) :
    init (.fn (.plain c)) args s =
      (.obj s.nextId,
        { marked := s.marked,
          hasInstanceGetter := s.hasInstanceGetter,
          instanceId := some s.nextId,
          inFlight := none,
          nextId := s.nextId + 1,
          initCalls := s.initCalls + 1,
          heap := heapSet (heapSet s.heap s.nextId (constructRaw c []))
                    s.nextId (f (constructRaw c []) args).1 }) := by
  simp only [init, initFresh, classOf]
  simp only [hio, hinst, hifl, himpl, if_true]
  rcases hr : (f (constructRaw c []) args).2 with _ | v | i | out
  · simp [hr, ← hifl, ← hinst]
  · simp [hr, ← hifl, ← hinst]
  · simp [hr, ← hifl, ← hinst]
  · rw [hr] at hsync
    simp [isThenable] at hsync

/-! The claims. -/

/-- Claim C4: for a construct registered with the return-first policy,
once a `requestInit` call has succeeded, every later call returns the
identity-equal object regardless of the arguments it passes, and the
entire registry state — the memoized instance's fields included — is
returned untouched, so the later arguments have no effect on the
instance's state. -/
theorem c4_return_first_repeat (k : Construct) (args0 : List Val) (sPre s1 : RegState)
    (o : Nat) (hpol : policyOf (classOf k) = .returnFirst)
    (h : init (.fn k) args0 sPre = (.obj o, s1)) :
    ∀ args, init (.fn k) args s1 = (.obj o, s1) := by
  intro args
  obtain ⟨hio, hinst, hm⟩ := init_obj_state k args0 sPre s1 o h
  apply init_memoized
  · unfold isInitOnlyOf at hio ⊢
    rw [hm]
    exact hio
  · exact hinst

/-- Claim C4 witness: the explainer's `App` scenario — `init` with
port 3000 then port 4000 returns the same object id with the same
state, and the memoized instance's `port` is still 3000. -/
theorem c4_return_first_repeat_w :
    policyOf (classOf (.plain appC)) = .returnFirst ∧
    init (.fn (.plain appC)) [.num 3000] s0 = (.obj 0, appS1) ∧
    init (.fn (.plain appC)) [.num 4000] appS1 = (.obj 0, appS1) ∧
    getField (heapGet appS1.heap 0) "port" = some (.num 3000) :=
  ⟨by decide, by decide,
   c4_return_first_repeat (.plain appC) [.num 3000] s0 appS1 0 (by decide) (by decide)
     [.num 4000],
   by decide⟩

/-- Claim C2 (code bug): the source's `init` binds
`const policy = ctor[SymbolInitPolicy] || 'return-first'` but never
consults it, so with the strict policy declared the second `init` call
returns the memoized instance instead of failing with a
reinitialization error: the README's own strict example
(`init Settings({env:'prod'}); init Settings({env:'dev'}) // throws`)
does not throw. -/
theorem c2_strict_policy_ignored :
    policyOf settingsC = .strict ∧
    (init (.fn (.plain settingsC)) [.str "prod"] s0).1 = .obj 0 ∧
    init (.fn (.plain settingsC)) [.str "dev"] settingsS1 = (.obj 0, settingsS1) :=
  ⟨by decide, by decide, by decide⟩

/-- Claim C3: single-flight coalescing.  If the first call on an
uninitialized construct returns a pending handle (the initializer was
asynchronous), the initializer body has executed exactly once, the
handle is stored in flight, and any number of further calls arriving
before settlement — whatever arguments each passes — all receive the
identity-equal handle `p` while the state (in particular the
invocation count) stays fixed, so every caller observes the settlement
of that one handle. -/
theorem c3_single_flight (c : ClassDef) (args0 : List Val) (argss : List (List Val))
    (s s1 : RegState) (p : Promise)
    (hinst : s.instanceId = none) (hifl : s.inFlight = none)
    (h : init (.fn (.plain c)) args0 s = (.promise p, s1)) :
    s1.initCalls = s.initCalls + 1 ∧
    s1.inFlight = some p ∧
    initMany (.fn (.plain c)) argss s1 = (argss.map fun _ => Outcome.promise p, s1) := by
  obtain ⟨hio, hifl1, hinst1, hcalls, hm⟩ := init_promise_fresh c args0 s s1 p hinst hifl h
  refine ⟨hcalls, hifl1, ?_⟩
  apply initMany_pending
  · unfold isInitOnlyOf at hio ⊢
    rw [hm]
    exact hio
  · exact hinst1
  · exact hifl1

/-- Claim C3 witness: the `examples/async.js` scenario — `init(DB,
'postgres://db')` returns pending handle `dbP` having run the
initializer once, and a second call with different arguments returns
the identical handle with nothing re-executed. -/
theorem c3_single_flight_w :
    init (.fn (.plain dbC)) [.str "postgres://db"] s0 = (.promise dbP, dbS1) ∧
    (dbS1.initCalls = s0.initCalls + 1 ∧
     dbS1.inFlight = some dbP ∧
     initMany (.fn (.plain dbC)) [[.str "ignored-later"]] dbS1
       = ([.promise dbP], dbS1)) :=
  ⟨by decide,
   c3_single_flight dbC [.str "postgres://db"] [[.str "ignored-later"]] s0 dbS1 dbP
     (by decide) (by decide) (by decide)⟩

/-- Claim C1 counterexample: when the asynchronous initializer
rejects, the registered `then` continuation never runs, so after
settlement `__inFlight` still holds the rejected handle, the next
`init` call returns that same rejected handle instead of starting a
fresh attempt, and the initializer body is never re-invoked — the
failed attempt does poison the registry, contrary to the claim. -/
theorem c1_rejection_poisons_cex :
    init (.fn (.plain dbFailC)) [.str "url-a"] s0 = (.promise dbFailP, dbFailS1) ∧
    awaitResult dbFailP = .error () ∧
    dbFailS1.instanceId = none ∧
    settle dbFailS1 = dbFailS1 ∧
    (settle dbFailS1).inFlight = some dbFailP ∧
    init (.fn (.plain dbFailC)) [.str "url-b"] (settle dbFailS1)
      = (.promise dbFailP, dbFailS1) ∧
    (settle dbFailS1).initCalls = 1 :=
  ⟨by decide, rfl, by decide, by decide, by decide, by decide, by decide⟩

/-- Claim C1 amended: if the asynchronous initializer rejects, no
instance is memoized and the rejection propagates to every caller
awaiting the shared pending handle; but the in-flight handle is not
cleared, so settlement changes nothing and every subsequent `init`
call returns the same rejected handle rather than starting a fresh
attempt. -/
theorem c1_rejection_amended (c : ClassDef) (a : List Val) (s : RegState) (p : Promise)
    (hio : isInitOnlyOf c s = true) (hinst : s.instanceId = none)
    (hifl : s.inFlight = some p) (hrej : p.out = .rejects) :
    awaitResult p = .error () ∧
    settle s = s ∧
    (settle s).instanceId = none ∧
    init (.fn (.plain c)) a (settle s) = (.promise p, s) := by
  have hs : settle s = s := by simp [settle, hifl, hrej]
  refine ⟨by simp [awaitResult, hrej], hs, by rw [hs]; exact hinst, ?_⟩
  rw [hs]
  exact init_pending (.plain c) a s p hio hinst hifl

/-- Claim C1 amended witness: the rejecting-initializer scenario at
its in-flight state. -/
theorem c1_rejection_amended_w :
    (isInitOnlyOf dbFailC dbFailS1 = true ∧ dbFailS1.instanceId = none ∧
     dbFailS1.inFlight = some dbFailP ∧ dbFailP.out = .rejects) ∧
    (awaitResult dbFailP = .error () ∧
     settle dbFailS1 = dbFailS1 ∧
     (settle dbFailS1).instanceId = none ∧
     init (.fn (.plain dbFailC)) [.str "url-b"] (settle dbFailS1)
       = (.promise dbFailP, dbFailS1)) :=
  ⟨⟨by decide, by decide, by decide, by decide⟩,
   c1_rejection_amended dbFailC [.str "url-b"] dbFailS1 dbFailP
     (by decide) (by decide) (by decide) (by decide)⟩

/-- Claim C5 counterexample: `init` allocates with
`Reflect.construct(ctor, [])`, which runs a declared user constructor
(with zero arguments).  On a class declaring both a constructor and an
`initializer`, the memoized instance carries the constructor's write
`ctorRan = true` even though the class declares no field defaults —
so the allocation is not "fields default-initialized with no user
constructor running". -/
theorem c5_ctor_runs_cex :
    ctorAndInitC.hasUserConstructor = true ∧
    ctorAndInitC.fieldDefaults = [] ∧
    (init (.fn (.plain ctorAndInitC)) [.num 7] s0).1 = .obj 0 ∧
    getField (heapGet (init (.fn (.plain ctorAndInitC)) [.num 7] s0).2.heap 0) "ctorRan"
      = some (.bool true) :=
  ⟨by decide, by decide, by decide, by decide⟩

/-- Claim C5 amended: when `requestInit` finds no memoized instance
and no in-flight attempt, it allocates by constructing the class with
zero arguments (`constructRaw c []`: field defaults run, and any
declared user constructor runs with no arguments — a class without a
user constructor gets exactly its default-initialized fields), then
synchronously invokes the initializer function on that instance with
the supplied arguments; for a non-thenable result the allocated object
is memoized and returned. -/
theorem c5_alloc_amended (c : ClassDef) (args : List Val) (s : RegState)
    (f : ObjFields → List Val → ObjFields × JsRet)
    (hio : isInitOnlyOf c s = true)
    (hinst : s.instanceId = none) (hifl : s.inFlight = none)
    (himpl : c.initializerImpl = some f)
    (hsync : isThenable (f (constructRaw c []) args).2 = false) :
    init (.fn (.plain c)) args s =
      (.obj s.nextId,
        { marked := s.marked,
          hasInstanceGetter := s.hasInstanceGetter,
          instanceId := some s.nextId,
          inFlight := none,
          nextId := s.nextId + 1,
          initCalls := s.initCalls + 1,
          heap := heapSet (heapSet s.heap s.nextId (constructRaw c []))
                    s.nextId (f (constructRaw c []) args).1 }) :=
  init_fresh_sync c args s f hio hinst hifl himpl hsync

/-- Claim C5 amended witness: the `App` class (no user constructor) at
port 3000 — allocation is the default-initialized object and the
initializer receives it together with the supplied arguments. -/
theorem c5_alloc_amended_w :
    init (.fn (.plain appC)) [.num 3000] s0 =
      (.obj s0.nextId,
        { marked := s0.marked,
          hasInstanceGetter := s0.hasInstanceGetter,
          instanceId := some s0.nextId,
          inFlight := none,
          nextId := s0.nextId + 1,
          initCalls := s0.initCalls + 1,
          heap := heapSet (heapSet s0.heap s0.nextId (constructRaw appC []))
                    s0.nextId (appInit (constructRaw appC []) [.num 3000]).1 }) :=
  c5_alloc_amended appC [.num 3000] s0 appInit
    (by decide) (by decide) (by decide) rfl (by decide)

/-- Claim C6 counterexample: `markInitOnly` succeeds on a class that
declares a conventional constructor and has no `initializer` at all —
it merely emits the console warning (the returned `true`) and installs
the mark, instead of failing in either case. -/
theorem c6_registration_never_fails_cex :
    ctorOnlyC.hasUserConstructor = true ∧
    ctorOnlyC.hasOwnInitializer = false ∧
    markInitOnly (.fn (.plain ctorOnlyC)) s0
      = .ok (true, { s0 with marked := true, hasInstanceGetter := true }) :=
  ⟨by decide, by decide, rfl⟩

/-- Claim C6 amended: registration fails (with a `TypeError`) exactly
when the target is not a function; on any class — including one
declaring a conventional constructor — it succeeds, setting the mark
and installing the accessor, and an absent own `initializer` only
produces the console warning reported in the result (the
missing-initializer error is raised later, by `init`, not here). -/
theorem c6_registration_amended (k : Construct) (s : RegState) :
    markInitOnly .nonFunction s = .error .notAFunction ∧
    markInitOnly (.fn k) s
      = .ok (!(classOf k).hasOwnInitializer,
             { s with marked := true, hasInstanceGetter := true }) :=
  ⟨rfl, rfl⟩

/-- Claim C7: misuse errors in both directions, each raised
synchronously as the immediate result of the offending call:
conventional construction through the guard proxy of an init-only
construct throws, and `init` on a non-init-only construct throws,
leaving the state untouched. -/
theorem c7_misuse_errors (c cN : ClassDef) (a aN : List Val) (s sN : RegState)
    (hreg : isInitOnlyOf c s = true) (hnot : isInitOnlyOf cN sN = false) :
    newOn (.fn (.guarded c)) a s = .thrown .initOnlyNewGuard ∧
    init (.fn (.plain cN)) aN sN = (.thrown .notInitOnly, sN) := by
  constructor
  · simp [newOn, hreg]
  · simp [init, classOf, hnot]

/-- Claim C7 witness: `new AppGuarded({port:1234})` throws, and
`init(User)` on a normal class throws. -/
theorem c7_misuse_errors_w :
    (isInitOnlyOf appC s0 = true ∧ isInitOnlyOf userC s0 = false) ∧
    (newOn (.fn (.guarded appC)) [.num 1234] s0 = .thrown .initOnlyNewGuard ∧
     init (.fn (.plain userC)) [] s0 = (.thrown .notInitOnly, s0)) :=
  ⟨⟨by decide, by decide⟩,
   c7_misuse_errors appC userC [.num 1234] [] s0 s0 (by decide) (by decide)⟩

/-- Claim C8 counterexample: a construct that became init-only by
declaring an own `initializer` but was never passed to `markInitOnly`
has no `instance` accessor — reading the property yields `undefined`
both before initialization (instead of an uninitialized error) and
after a successful initialization has memoized instance 0 (instead of
returning it). -/
theorem c8_accessor_missing_cex :
    appC.hasOwnInitializer = true ∧
    instanceProp s0 = .undefined ∧
    appS1.instanceId = some 0 ∧
    instanceProp appS1 = .undefined :=
  ⟨by decide, by decide, by decide, by decide⟩

/-- Claim C8 amended: the `instance` accessor exists only on
constructs explicitly registered through `markInitOnly`; after such
registration it throws the uninitialized `TypeError` while no instance
is memoized and returns the memoized instance once one exists, whereas
on a state where the getter was never installed the property reads as
`undefined`. -/
theorem c8_accessor_amended (k : Construct) (sPre s1 : RegState) (w : Bool) (o : Nat)
    (hmark : markInitOnly (.fn k) sPre = .ok (w, s1)) :
    (s1.instanceId = none → instanceProp s1 = .thrown .uninitialized) ∧
    (s1.instanceId = some o → instanceProp s1 = .objRef o) ∧
    (sPre.hasInstanceGetter = false → instanceProp sPre = .undefined) := by
  have h1 : s1.hasInstanceGetter = true := by
    simp only [markInitOnly, Except.ok.injEq, Prod.mk.injEq] at hmark
    rw [← hmark.2]
  refine ⟨?_, ?_, ?_⟩
  · intro hn
    simp [instanceProp, h1, hn]
  · intro ho
    simp [instanceProp, h1, ho]
  · intro hg
    simp [instanceProp, hg]

/-- Claim C8 amended witness: `markInitOnly(App)` installs the getter,
and reading `App.instance` before any initialization throws the
uninitialized error. -/
theorem c8_accessor_amended_w :
    markInitOnly (.fn (.plain appC)) s0 = .ok (false, markedS0) ∧
    instanceProp markedS0 = .thrown .uninitialized :=
  ⟨rfl, (c8_accessor_amended (.plain appC) s0 markedS0 false 0 rfl).1 (by decide)⟩

/-- Claim C9: for a synchronous initializer — one whose result `r` is
not thenable — the first `init` call returns the freshly allocated
object (id `s.nextId`) and memoizes that same object; the conclusion
never mentions `f`'s returned value, which is discarded entirely, even
when it is a reference to a different non-thenable object. -/
theorem c9_sync_return_discarded (c : ClassDef) (args : List Val) (s : RegState)
    (f : ObjFields → List Val → ObjFields × JsRet)
    (hio : isInitOnlyOf c s = true)
    (hinst : s.instanceId = none) (hifl : s.inFlight = none)
    (himpl : c.initializerImpl = some f)
    (hsync : isThenable (f (constructRaw c []) args).2 = false) :
    (init (.fn (.plain c)) args s).1 = .obj s.nextId ∧
    (init (.fn (.plain c)) args s).2.instanceId = some s.nextId := by
  have h := init_fresh_sync c args s f hio hinst hifl himpl hsync
  rw [h]
  exact ⟨rfl, rfl⟩

/-- Claim C9 witness: a class whose initializer returns a reference to
a different object (id 99, distinct from the allocated id 0); `init`
still returns and memoizes object 0. -/
theorem c9_sync_return_discarded_w :
    ((retObjInit (constructRaw retObjC []) []).2 = .objRef 99 ∧
     isThenable (retObjInit (constructRaw retObjC []) []).2 = false) ∧
    ((init (.fn (.plain retObjC)) [] s0).1 = .obj 0 ∧
     (init (.fn (.plain retObjC)) [] s0).2.instanceId = some 0) :=
  ⟨⟨by decide, by decide⟩,
   c9_sync_return_discarded retObjC [] s0 retObjInit
     (by decide) (by decide) (by decide) rfl (by decide)⟩

/-- Claim C10: on an init-only class, every `init` call made through
the proxy returned by `guardNewForInitOnly` throws a `TypeError` and
leaves the state unchanged — `init`'s internal
`Reflect.construct(ctor, [])` constructs through the proxy, whose
construct trap rejects init-only targets — so, as in the repository's
own `AppGuarded` example, the guarded wrapper can never be initialized
through the init pathway: no call sequence memoizes an instance. -/
theorem c10_guard_blocks_init (c : ClassDef) (a : List Val) (argss : List (List Val))
    (s : RegState) (hio : isInitOnlyOf c s = true)
    (hinst : s.instanceId = none) (hifl : s.inFlight = none) :
    init (.fn (.guarded c)) a s = (.thrown .initOnlyNewGuard, s) ∧
    initMany (.fn (.guarded c)) argss s
      = (argss.map fun _ => Outcome.thrown .initOnlyNewGuard, s) :=
  ⟨init_guard_throw c a s hio hinst hifl, initMany_guard_throw c argss s hio hinst hifl⟩

/-- Claim C10 witness: `init(AppGuarded, {port:3000})` — the very call
of the repository's example — throws and changes nothing. -/
theorem c10_guard_blocks_init_w :
    isInitOnlyOf appC s0 = true ∧
    init (.fn (.guarded appC)) [.num 3000] s0 = (.thrown .initOnlyNewGuard, s0) :=
  ⟨by decide,
   (c10_guard_blocks_init appC [.num 3000] [] s0 (by decide) (by decide) (by decide)).1⟩

end InitOnly
